import Mathlib

/-!
Verification of the anomaly-detection pipeline in backend/python/detect.py.

The Python source is shallowly embedded below.  Pure computations
(`check_anomaly_rules`, the filename construction of `save_processed_frame`,
the label-background geometry of `draw_bounding_boxes_on_frame`) become Lean
functions on `Nat`/`Int`/`Rat`/`String`.  The stateful frame loop of
`process_video_stream` becomes a structurally recursive function over the
finite list of frames the video decoder yields, threading an explicit
`LoopState`.  External collaborators (the YOLO detector, the cv2 drawing
primitives, `cv2.imwrite` success) are inputs of the model, collected in an
`Env` record, exactly as the spec treats them (black boxes).  Pixel data is an
arbitrary type `Img`; `cv2.getTextSize` results enter the label geometry as
integer parameters.  Python floats carried by detections (confidence values,
box coordinates from the pandas frame) are modelled as exact rationals.
-/

/-- A detection row of the pandas frame returned by the model:
`name`, `confidence`, and the four box coordinates (floats, modelled as
rationals). -/
structure Detection where
  name : String
  confidence : ℚ
  xmin : ℚ
  ymin : ℚ
  xmax : ℚ
  ymax : ℚ
deriving DecidableEq, Repr

/-- The anomaly rule configuration.  In detect.py the two fields are the
module constants `TARGET_CLASS_NAME` and `MAX_ALLOWED_TARGETS`; the spec
reframes them as an explicit `RuleConfig` value, which the embedding adopts,
instantiated with the constants below for the shipped configuration. -/
structure RuleConfig where
  target_class : String
  max_allowed : ℕ
deriving DecidableEq, Repr

/-- detect.py line 51: `TARGET_CLASS_NAME: str = 'person'`. -/
def TARGET_CLASS_NAME : String := "person"

/-- detect.py line 52: `MAX_ALLOWED_TARGETS: int = 1`. -/
def MAX_ALLOWED_TARGETS : ℕ := 1

/-- The rule configuration the script actually runs with. -/
def defaultRuleConfig : RuleConfig :=
  { target_class := TARGET_CLASS_NAME, max_allowed := MAX_ALLOWED_TARGETS }

/-- Python `int()` applied to a float: truncation toward zero. -/
def pyInt (q : ℚ) : ℤ :=
  if 0 ≤ q then Rat.floor q else Rat.ceil q

/-- Round-half-to-even on a rational, the behaviour of Python `round` at
integer granularity. -/
def roundHalfEven (q : ℚ) : ℤ :=
  let f := Rat.floor q
  let r := q - (f : ℚ)
  if r < 1/2 then f
  else if 1/2 < r then f + 1
  else if f % 2 = 0 then f else f + 1

/-- Python `round(x, 4)` as used on confidences in `check_anomaly_rules`. -/
def pyRound4 (q : ℚ) : ℚ :=
  ((roundHalfEven (q * 10000) : ℚ)) / 10000

/-- One element of `triggering_objects_list` in `check_anomaly_rules`
(detect.py lines 213-220): the projected and converted fields of a matching
detection row. -/
structure TriggeringObject where
  class_name : String
  confidence : ℚ
  xmin : ℤ
  ymin : ℤ
  xmax : ℤ
  ymax : ℤ
deriving DecidableEq, Repr

/-- detect.py lines 213-220: the dict appended for one matching row. -/
def mkTriggeringObject (d : Detection) : TriggeringObject :=
  { class_name := d.name
  , confidence := pyRound4 d.confidence
  , xmin := pyInt d.xmin
  , ymin := pyInt d.ymin
  , xmax := pyInt d.xmax
  , ymax := pyInt d.ymax }

/-- detect.py lines 200-224, `check_anomaly_rules`: filters the detections to
those whose `name` equals the target class, counts them, triggers when the
count strictly exceeds `max_allowed`, and builds `triggering_objects_list`
only inside the `if anomaly_is_triggered:` branch.  -/
def checkAnomalyRules (cfg : RuleConfig) (dets : List Detection) :
    Bool × ℕ × List TriggeringObject :=
  let specificClassDetections := dets.filter (fun d => decide (d.name = cfg.target_class))
  let countOfTargetClass := specificClassDetections.length
  let anomalyIsTriggered : Bool := decide (countOfTargetClass > cfg.max_allowed)
  let triggeringObjectsList : List TriggeringObject :=
    if anomalyIsTriggered then specificClassDetections.map mkTriggeringObject else []
  (anomalyIsTriggered, countOfTargetClass, triggeringObjectsList)

/-- Character of a single decimal digit, `'0'` through `'9'`. -/
def digitChar (d : ℕ) : Char := Char.ofNat (48 + d)

/-- Decimal digit expansion with explicit fuel (the fuel `n + 1` supplied by
`natToDecimal` always suffices); accumulates most-significant digit first,
like Python decimal rendering of a nonnegative int. -/
def natToDigitsAux : ℕ → ℕ → List Char → List Char
  | 0, _, acc => acc
  | fuel + 1, n, acc =>
      if n < 10 then digitChar (n % 10) :: acc
      else natToDigitsAux fuel (n / 10) (digitChar (n % 10) :: acc)

/-- Decimal rendering of a natural number, the model of Python `str` / the
`d` format code on a nonnegative int. -/
def natToDecimal (n : ℕ) : String := String.mk (natToDigitsAux (n + 1) n [])

/-- Python format spec `0Nd` on a nonnegative int: pad the decimal rendering
with leading zeros to a minimum width `w`. -/
def padZeros (w : ℕ) (n : ℕ) : String :=
  String.mk (List.replicate (w - (natToDecimal n).data.length) '0' ++ (natToDecimal n).data)

/-- detect.py line 233: the f-string
`f"processed_frame_\x7bframe_idx:06d\x7d_\x7bint(timestamp_ms_val):010d\x7d.jpg"`.
The frame ordinal and the (already truncated) millisecond timestamp are
nonnegative in every run, so both format fields are modelled on `Nat`. -/
def uniqueFilename (frameIdx : ℕ) (timestampMs : ℕ) : String :=
  String.mk ("processed_frame_".data ++ (padZeros 6 frameIdx).data
    ++ "_".data ++ (padZeros 10 timestampMs).data ++ ".jpg".data)

/-- detect.py lines 227-249, `save_processed_frame`.  Directory creation and
`cv2.imwrite` are external effects; `writeOk` is the success of the image
write.  On success the function returns only `unique_filename` (line 243),
never `full_save_path`; on failure (or an exception, both logged branches)
it returns `None`. -/
def saveProcessedFrame {Img : Type} (writeOk : Bool) (frameMat : Img)
    (frameIdx : ℕ) (timestampMs : ℕ) : Option String :=
  if writeOk then some (uniqueFilename frameIdx timestampMs) else none

/-- detect.py line 188: `label_ymin_bg = max(ymin - label_height - baseline, 0)`. -/
def labelYminBg (ymin labelHeight baseline : ℤ) : ℤ :=
  max (ymin - labelHeight - baseline) 0

/-- detect.py line 189: `label_ymax_bg = ymin - baseline` (no clamping). -/
def labelYmaxBg (ymin baseline : ℤ) : ℤ := ymin - baseline

/-- detect.py line 192: `label_xmin_bg = max(xmin, 0)`. -/
def labelXminBg (xmin : ℤ) : ℤ := max xmin 0

/-- The fields of the `alert_payload` JSON object built in
`process_video_stream` (detect.py lines 353-375).  The nested
`model_settings_used` block only echoes the externally supplied
confidence/IoU thresholds and is omitted.  `timestamp_ms` carries
`round(frame_timestamp_msec, 2)`, the identity on the integral millisecond
timestamps of the model. -/
structure AlertPayload where
  alert_type : String
  message : String
  frame_filename : String
  timestamp_ms : ℕ
  frame_number_original : ℕ
  frame_number_processed : ℕ
  target_class : String
  max_allowed : ℕ
  anomaly_trigger_class_count : ℕ
  total_objects_detected_in_frame : ℕ
  triggering_objects_bboxes : List TriggeringObject
deriving DecidableEq, Repr

/-- detect.py lines 353-375: assembly of the alert payload printed to stdout. -/
def mkAlertPayload (cfg : RuleConfig) (fname : String) (ts : ℕ)
    (frameNum : ℕ) (framesSent : ℕ) (count : ℕ) (totalDets : ℕ)
    (trig : List TriggeringObject) : AlertPayload :=
  { alert_type := "ObjectCountExceeded: " ++ cfg.target_class
  , message := "Detected " ++ natToDecimal count ++ " instance(s) of \x27"
      ++ cfg.target_class ++ "\x27, which is > " ++ natToDecimal cfg.max_allowed
      ++ " allowed."
  , frame_filename := fname
  , timestamp_ms := ts
  , frame_number_original := frameNum
  , frame_number_processed := framesSent
  , target_class := cfg.target_class
  , max_allowed := cfg.max_allowed
  , anomaly_trigger_class_count := count
  , total_objects_detected_in_frame := totalDets
  , triggering_objects_bboxes := trig }

/-- Record of one execution of the always-run annotation step (detect.py
lines 333-340): the frame as read from the stream, the full detection set,
and the annotated copy handed onward. -/
structure DrawEntry (Img : Type) where
  source : Img
  dets : List Detection
  annotated : Img
deriving DecidableEq, Repr

/-- The environment of one run: the finite stream of decodable frames with
their `CAP_PROP_POS_MSEC` timestamps, and the three external collaborators —
the detector (`None` models an exception raised during inference), the cv2
drawing primitives as one function from a frame buffer and a detection set to
the resulting buffer, and the success of `cv2.imwrite` per frame ordinal. -/
structure Env (Img : Type) where
  frames : List (Img × ℕ)
  detector : Img → Option (List Detection)
  draw : Img → List Detection → Img
  writeOk : ℕ → Bool

/-- `bgr_frame_original.copy()` (detect.py line 335): a fresh buffer holding
the same pixel values — in the value model, the identity.  Kept as a named
definition so that the annotate-on-a-copy discipline is visible in the
embedding. -/
def frameCopy {Img : Type} (img : Img) : Img := img

/-- The mutable locals of `process_video_stream` (detect.py lines 287-289)
plus ghost observables recording what the loop sent, drew, emitted, and
persisted. -/
structure LoopState (Img : Type) where
  currentFrameNum : ℕ
  framesSentToModel : ℕ
  firstAnomalyReported : Bool
  processedOrdinals : List ℕ
  drawn : List (DrawEntry Img)
  alerts : List AlertPayload
  savedFiles : List String
  savedImages : List Img

/-- detect.py lines 287-289: counters start at zero, flag down, nothing yet
observed. -/
def initState (Img : Type) : LoopState Img :=
  { currentFrameNum := 0
  , framesSentToModel := 0
  , firstAnomalyReported := false
  , processedOrdinals := []
  , drawn := []
  , alerts := []
  , savedFiles := []
  , savedImages := [] }

/-- detect.py line 299: `current_frame_num += 1`. -/
def readFrame {Img : Type} (s : LoopState Img) : LoopState Img :=
  { s with currentFrameNum := s.currentFrameNum + 1 }

/-- detect.py line 305: `frames_sent_to_model += 1`, recording (as a ghost
observable) that the frame with the current read ordinal is handed to the
detector. -/
def markSampled {Img : Type} (s : LoopState Img) : LoopState Img :=
  { s with
    framesSentToModel := s.framesSentToModel + 1,
    processedOrdinals := s.processedOrdinals ++ [s.currentFrameNum] }

/-- Ghost observable for detect.py lines 333-340: one annotate-on-a-copy
step was performed. -/
def recordDraw {Img : Type} (e : DrawEntry Img) (s : LoopState Img) : LoopState Img :=
  { s with drawn := s.drawn ++ [e] }

/-- detect.py lines 343-382: the anomaly branch.  The flag is raised first
(line 344), then the annotated frame is persisted; only if persistence
returned a filename is the alert printed (lines 352-377), and in either case
the loop breaks (line 382). -/
def reportAnomaly {Img : Type} (cfg : RuleConfig) (env : Env Img)
    (annotated : Img) (ts : ℕ) (dets : List Detection) (s : LoopState Img) :
    LoopState Img :=
  let s4 := { s with firstAnomalyReported := true }
  match saveProcessedFrame (env.writeOk s.currentFrameNum) annotated
      s.currentFrameNum ts with
  | some fname =>
      { s4 with
        alerts := s4.alerts ++ [mkAlertPayload cfg fname ts s.currentFrameNum
          s.framesSentToModel (checkAnomalyRules cfg dets).2.1 dets.length
          (checkAnomalyRules cfg dets).2.2]
      , savedFiles := s4.savedFiles ++ [fname]
      , savedImages := s4.savedImages ++ [annotated] }
  | none => s4

/-- detect.py lines 293-388, the `while` loop of `process_video_stream`.
List exhaustion is `frame_read_success` turning false.  Per iteration: the
read counter is incremented (line 299); a frame whose ordinal is not a
multiple of the sample rate is discarded (lines 302-303); otherwise the
sampled counter is incremented and the frame goes to the detector (lines
305-322) — a raised exception (`none`) breaks the loop (lines 384-388); the
rule is evaluated and the frame is always annotated on a copy (lines
331-340); a first triggering verdict enters `reportAnomaly` and the loop
breaks; otherwise the loop continues. -/
def processLoop {Img : Type} (cfg : RuleConfig) (env : Env Img)
    (sampleRate : ℕ) : List (Img × ℕ) → LoopState Img → LoopState Img
  | [], s => s
  | (img, ts) :: rest, s =>
    if (readFrame s).currentFrameNum % sampleRate ≠ 0 then
      processLoop cfg env sampleRate rest (readFrame s)
    else
      match env.detector img with
      | none => markSampled (readFrame s)
      | some dets =>
        if (checkAnomalyRules cfg dets).1
            && !(recordDraw ⟨img, dets, env.draw (frameCopy img) dets⟩
                  (markSampled (readFrame s))).firstAnomalyReported then
          reportAnomaly cfg env (env.draw (frameCopy img) dets) ts dets
            (recordDraw ⟨img, dets, env.draw (frameCopy img) dets⟩
              (markSampled (readFrame s)))
        else
          processLoop cfg env sampleRate rest
            (recordDraw ⟨img, dets, env.draw (frameCopy img) dets⟩
              (markSampled (readFrame s)))

/-- Externally visible outcome of `process_video_stream`: the end-of-run
`RunStats` counters (detect.py lines 398-403), the ghost observables, the
stderr diagnostic choice of line 402, and the exit code of line 407. -/
structure RunResult (Img : Type) where
  framesRead : ℕ
  framesSampled : ℕ
  anomalyFlag : Bool
  alerts : List AlertPayload
  processedOrdinals : List ℕ
  drawn : List (DrawEntry Img)
  savedFiles : List String
  savedImages : List Img
  noAnomalyDiagnostic : Bool
  exitCode : ℕ

/-- detect.py lines 252-407, `process_video_stream` after the capture has
been opened: run the loop from the initial state, report the counters, print
the "no anomalies" diagnostic exactly when the flag is down (line 402),
and exit 0 unconditionally (line 407). -/
def processVideoStream {Img : Type} (cfg : RuleConfig) (env : Env Img)
    (sampleRate : ℕ) : RunResult Img :=
  let s := processLoop cfg env sampleRate env.frames (initState Img)
  { framesRead := s.currentFrameNum
  , framesSampled := s.framesSentToModel
  , anomalyFlag := s.firstAnomalyReported
  , alerts := s.alerts
  , processedOrdinals := s.processedOrdinals
  , drawn := s.drawn
  , savedFiles := s.savedFiles
  , savedImages := s.savedImages
  , noAnomalyDiagnostic := !s.firstAnomalyReported
  , exitCode := 0 }

section LoopLemmas

variable {Img : Type} (cfg : RuleConfig) (env : Env Img) (sr : ℕ)

@[simp] theorem readFrame_currentFrameNum (s : LoopState Img) :
    (readFrame s).currentFrameNum = s.currentFrameNum + 1 := rfl

@[simp] theorem readFrame_framesSentToModel (s : LoopState Img) :
    (readFrame s).framesSentToModel = s.framesSentToModel := rfl

@[simp] theorem readFrame_firstAnomalyReported (s : LoopState Img) :
    (readFrame s).firstAnomalyReported = s.firstAnomalyReported := rfl

@[simp] theorem readFrame_processedOrdinals (s : LoopState Img) :
    (readFrame s).processedOrdinals = s.processedOrdinals := rfl

@[simp] theorem readFrame_drawn (s : LoopState Img) :
    (readFrame s).drawn = s.drawn := rfl

@[simp] theorem readFrame_alerts (s : LoopState Img) :
    (readFrame s).alerts = s.alerts := rfl

@[simp] theorem readFrame_savedFiles (s : LoopState Img) :
    (readFrame s).savedFiles = s.savedFiles := rfl

@[simp] theorem readFrame_savedImages (s : LoopState Img) :
    (readFrame s).savedImages = s.savedImages := rfl

@[simp] theorem markSampled_currentFrameNum (s : LoopState Img) :
    (markSampled s).currentFrameNum = s.currentFrameNum := rfl

@[simp] theorem markSampled_framesSentToModel (s : LoopState Img) :
    (markSampled s).framesSentToModel = s.framesSentToModel + 1 := rfl

@[simp] theorem markSampled_firstAnomalyReported (s : LoopState Img) :
    (markSampled s).firstAnomalyReported = s.firstAnomalyReported := rfl

@[simp] theorem markSampled_processedOrdinals (s : LoopState Img) :
    (markSampled s).processedOrdinals = s.processedOrdinals ++ [s.currentFrameNum] := rfl

@[simp] theorem markSampled_drawn (s : LoopState Img) :
    (markSampled s).drawn = s.drawn := rfl

@[simp] theorem markSampled_alerts (s : LoopState Img) :
    (markSampled s).alerts = s.alerts := rfl

@[simp] theorem markSampled_savedFiles (s : LoopState Img) :
    (markSampled s).savedFiles = s.savedFiles := rfl

@[simp] theorem markSampled_savedImages (s : LoopState Img) :
    (markSampled s).savedImages = s.savedImages := rfl

@[simp] theorem recordDraw_currentFrameNum (e : DrawEntry Img) (s : LoopState Img) :
    (recordDraw e s).currentFrameNum = s.currentFrameNum := rfl

@[simp] theorem recordDraw_framesSentToModel (e : DrawEntry Img) (s : LoopState Img) :
    (recordDraw e s).framesSentToModel = s.framesSentToModel := rfl

@[simp] theorem recordDraw_firstAnomalyReported (e : DrawEntry Img) (s : LoopState Img) :
    (recordDraw e s).firstAnomalyReported = s.firstAnomalyReported := rfl

@[simp] theorem recordDraw_processedOrdinals (e : DrawEntry Img) (s : LoopState Img) :
    (recordDraw e s).processedOrdinals = s.processedOrdinals := rfl

@[simp] theorem recordDraw_drawn (e : DrawEntry Img) (s : LoopState Img) :
    (recordDraw e s).drawn = s.drawn ++ [e] := rfl

@[simp] theorem recordDraw_alerts (e : DrawEntry Img) (s : LoopState Img) :
    (recordDraw e s).alerts = s.alerts := rfl

@[simp] theorem recordDraw_savedFiles (e : DrawEntry Img) (s : LoopState Img) :
    (recordDraw e s).savedFiles = s.savedFiles := rfl

@[simp] theorem recordDraw_savedImages (e : DrawEntry Img) (s : LoopState Img) :
    (recordDraw e s).savedImages = s.savedImages := rfl

theorem reportAnomaly_currentFrameNum (annotated : Img) (ts : ℕ)
    (dets : List Detection) (s : LoopState Img) :
    (reportAnomaly cfg env annotated ts dets s).currentFrameNum = s.currentFrameNum := by
  unfold reportAnomaly saveProcessedFrame
  cases env.writeOk s.currentFrameNum <;> simp

theorem reportAnomaly_ords (annotated : Img) (ts : ℕ)
    (dets : List Detection) (s : LoopState Img) :
    (reportAnomaly cfg env annotated ts dets s).processedOrdinals = s.processedOrdinals := by
  unfold reportAnomaly saveProcessedFrame
  cases env.writeOk s.currentFrameNum <;> simp

theorem reportAnomaly_drawn (annotated : Img) (ts : ℕ)
    (dets : List Detection) (s : LoopState Img) :
    (reportAnomaly cfg env annotated ts dets s).drawn = s.drawn := by
  unfold reportAnomaly saveProcessedFrame
  cases env.writeOk s.currentFrameNum <;> simp

theorem reportAnomaly_framesSent (annotated : Img) (ts : ℕ)
    (dets : List Detection) (s : LoopState Img) :
    (reportAnomaly cfg env annotated ts dets s).framesSentToModel = s.framesSentToModel := by
  unfold reportAnomaly saveProcessedFrame
  cases env.writeOk s.currentFrameNum <;> simp

theorem reportAnomaly_alerts_le (annotated : Img) (ts : ℕ)
    (dets : List Detection) (s : LoopState Img) :
    (reportAnomaly cfg env annotated ts dets s).alerts.length ≤ s.alerts.length + 1 := by
  unfold reportAnomaly saveProcessedFrame
  cases env.writeOk s.currentFrameNum <;> simp

theorem reportAnomaly_saved_le (annotated : Img) (ts : ℕ)
    (dets : List Detection) (s : LoopState Img) :
    (reportAnomaly cfg env annotated ts dets s).savedFiles.length ≤ s.savedFiles.length + 1 := by
  unfold reportAnomaly saveProcessedFrame
  cases env.writeOk s.currentFrameNum <;> simp

theorem reportAnomaly_flag (annotated : Img) (ts : ℕ)
    (dets : List Detection) (s : LoopState Img) :
    (reportAnomaly cfg env annotated ts dets s).firstAnomalyReported = true := by
  unfold reportAnomaly saveProcessedFrame
  cases env.writeOk s.currentFrameNum <;> simp

theorem reportAnomaly_alert_files (annotated : Img) (ts : ℕ)
    (dets : List Detection) (s : LoopState Img)
    (h : ∀ a ∈ s.alerts, a.frame_filename ∈ s.savedFiles) :
    ∀ a ∈ (reportAnomaly cfg env annotated ts dets s).alerts,
      a.frame_filename ∈ (reportAnomaly cfg env annotated ts dets s).savedFiles := by
  unfold reportAnomaly saveProcessedFrame
  cases env.writeOk s.currentFrameNum <;> simp
  · exact h
  · rintro a (ha | rfl)
    · exact Or.inl (h a ha)
    · exact Or.inr rfl

theorem reportAnomaly_savedImages (annotated : Img) (ts : ℕ)
    (dets : List Detection) (s : LoopState Img) :
    ∀ i ∈ (reportAnomaly cfg env annotated ts dets s).savedImages,
      i ∈ s.savedImages ∨ i = annotated := by
  unfold reportAnomaly saveProcessedFrame
  cases env.writeOk s.currentFrameNum <;> simp
  exact fun i hi => Or.inl hi

theorem processLoop_alerts_le (frames : List (Img × ℕ)) (s : LoopState Img) :
    (processLoop cfg env sr frames s).alerts.length ≤ s.alerts.length + 1 := by
  induction frames generalizing s with
  | nil => exact Nat.le_succ _
  | cons f rest ih =>
    obtain ⟨img, ts⟩ := f
    simp only [processLoop]
    split
    · exact le_trans (ih _) (by simp)
    · split
      · simp
      · split
        · exact le_trans (reportAnomaly_alerts_le cfg env _ _ _ _) (by simp)
        · exact le_trans (ih _) (by simp)

theorem processLoop_saved_le (frames : List (Img × ℕ)) (s : LoopState Img) :
    (processLoop cfg env sr frames s).savedFiles.length ≤ s.savedFiles.length + 1 := by
  induction frames generalizing s with
  | nil => exact Nat.le_succ _
  | cons f rest ih =>
    obtain ⟨img, ts⟩ := f
    simp only [processLoop]
    split
    · exact le_trans (ih _) (by simp)
    · split
      · simp
      · split
        · exact le_trans (reportAnomaly_saved_le cfg env _ _ _ _) (by simp)
        · exact le_trans (ih _) (by simp)

theorem processLoop_cfn_ge (frames : List (Img × ℕ)) (s : LoopState Img) :
    s.currentFrameNum ≤ (processLoop cfg env sr frames s).currentFrameNum := by
  induction frames generalizing s with
  | nil => exact le_refl _
  | cons f rest ih =>
    obtain ⟨img, ts⟩ := f
    simp only [processLoop]
    split
    · exact le_trans (Nat.le_succ _) (by simpa using ih (readFrame s))
    · split
      · simp
      · split
        · rw [reportAnomaly_currentFrameNum]; simp
        · rename_i dets hdet hanom
          refine le_trans (Nat.le_succ _) ?_
          simpa using ih (recordDraw ⟨img, dets, env.draw (frameCopy img) dets⟩
            (markSampled (readFrame s)))

theorem processLoop_ords (frames : List (Img × ℕ)) (s : LoopState Img) :
    (processLoop cfg env sr frames s).processedOrdinals
      = s.processedOrdinals ++
        (List.range' (s.currentFrameNum + 1)
          ((processLoop cfg env sr frames s).currentFrameNum - s.currentFrameNum)).filter
          (fun n => decide (n % sr = 0)) := by
  induction frames generalizing s with
  | nil => simp [processLoop]
  | cons f rest ih =>
    obtain ⟨img, ts⟩ := f
    simp only [processLoop]
    split
    · rename_i hmod
      have hge := processLoop_cfn_ge cfg env sr rest (readFrame s)
      rw [ih (readFrame s)]
      have hk : (processLoop cfg env sr rest (readFrame s)).currentFrameNum
            - s.currentFrameNum
          = ((processLoop cfg env sr rest (readFrame s)).currentFrameNum
            - (s.currentFrameNum + 1)) + 1 := by
        simp at hge; omega
      rw [hk, List.range'_succ, List.filter_cons]
      simp only [readFrame_currentFrameNum] at hmod
      simp [hmod]
    · rename_i hmod
      have hz : (s.currentFrameNum + 1) % sr = 0 := by
        simp only [readFrame_currentFrameNum] at hmod
        by_contra hc
        exact hmod hc
      split
      · simp [Nat.add_sub_cancel_left, List.range'_one, List.filter_cons, hz]
      · split
        · rw [reportAnomaly_currentFrameNum, reportAnomaly_ords]
          simp [Nat.add_sub_cancel_left, List.range'_one, List.filter_cons, hz]
        · rename_i dets hdet hanom
          set s3 := recordDraw ⟨img, dets, env.draw (frameCopy img) dets⟩
              (markSampled (readFrame s)) with hs3
          have hge := processLoop_cfn_ge cfg env sr rest s3
          rw [ih s3]
          have hcfn : s3.currentFrameNum = s.currentFrameNum + 1 := by simp [hs3]
          have hk : (processLoop cfg env sr rest s3).currentFrameNum - s.currentFrameNum
              = ((processLoop cfg env sr rest s3).currentFrameNum
                - (s.currentFrameNum + 1)) + 1 := by
            rw [hcfn] at hge; omega
          rw [hk, List.range'_succ, List.filter_cons]
          simp [hs3, hz]

theorem processLoop_alert_files (frames : List (Img × ℕ)) (s : LoopState Img)
    (h : ∀ a ∈ s.alerts, a.frame_filename ∈ s.savedFiles) :
    ∀ a ∈ (processLoop cfg env sr frames s).alerts,
      a.frame_filename ∈ (processLoop cfg env sr frames s).savedFiles := by
  induction frames generalizing s with
  | nil => exact h
  | cons f rest ih =>
    obtain ⟨img, ts⟩ := f
    simp only [processLoop]
    split
    · exact ih _ (by simpa using h)
    · split
      · simpa using h
      · split
        · exact reportAnomaly_alert_files cfg env _ _ _ _ (by simpa using h)
        · exact ih _ (by simpa using h)

theorem processLoop_drawn_spec (frames : List (Img × ℕ)) (s : LoopState Img) :
    ∀ e ∈ (processLoop cfg env sr frames s).drawn,
      e ∈ s.drawn ∨
        (e.annotated = env.draw (frameCopy e.source) e.dets
          ∧ env.detector e.source = some e.dets
          ∧ e.source ∈ frames.map Prod.fst) := by
  induction frames generalizing s with
  | nil => exact fun e he => Or.inl he
  | cons f rest ih =>
    obtain ⟨img, ts⟩ := f
    simp only [processLoop]
    split
    · intro e he
      rcases ih _ e he with h1 | h2
      · exact Or.inl (by simpa using h1)
      · exact Or.inr ⟨h2.1, h2.2.1, by simp; exact Or.inr (by simpa using h2.2.2)⟩
    · split
      · intro e he
        exact Or.inl (by simpa using he)
      · split
        · rename_i dets hdet hanom
          intro e he
          rw [reportAnomaly_drawn] at he
          simp only [recordDraw_drawn, markSampled_drawn, readFrame_drawn] at he
          rcases List.mem_append.mp he with h1 | h2
          · exact Or.inl h1
          · have he2 : e = ⟨img, dets, env.draw (frameCopy img) dets⟩ := by simpa using h2
            subst he2
            exact Or.inr ⟨rfl, hdet, by simp⟩
        · rename_i dets hdet hanom
          intro e he
          rcases ih _ e he with h1 | h2
          · simp only [recordDraw_drawn, markSampled_drawn, readFrame_drawn] at h1
            rcases List.mem_append.mp h1 with g1 | g2
            · exact Or.inl g1
            · have he2 : e = ⟨img, dets, env.draw (frameCopy img) dets⟩ := by simpa using g2
              subst he2
              exact Or.inr ⟨rfl, hdet, by simp⟩
          · exact Or.inr ⟨h2.1, h2.2.1, by simp; exact Or.inr (by simpa using h2.2.2)⟩

theorem processLoop_drawn_count (frames : List (Img × ℕ)) (s : LoopState Img)
    (hdet : ∀ i, (env.detector i).isSome) :
    (processLoop cfg env sr frames s).drawn.length + s.framesSentToModel
      = (processLoop cfg env sr frames s).framesSentToModel + s.drawn.length := by
  induction frames generalizing s with
  | nil => simp only [processLoop]; omega
  | cons f rest ih =>
    obtain ⟨img, ts⟩ := f
    simp only [processLoop]
    split
    · have := ih (readFrame s)
      simpa using this
    · split
      · rename_i hnone
        have hsome := hdet img
        rw [hnone] at hsome
        simp at hsome
      · split
        · rw [reportAnomaly_drawn, reportAnomaly_framesSent]
          simp
          omega
        · rename_i dets hdet2 hanom
          have := ih (recordDraw ⟨img, dets, env.draw (frameCopy img) dets⟩
            (markSampled (readFrame s)))
          simp at this
          omega

theorem processLoop_savedImages (frames : List (Img × ℕ)) (s : LoopState Img)
    (h : ∀ i ∈ s.savedImages, ∃ e ∈ s.drawn, i = e.annotated) :
    ∀ i ∈ (processLoop cfg env sr frames s).savedImages,
      ∃ e ∈ (processLoop cfg env sr frames s).drawn, i = e.annotated := by
  induction frames generalizing s with
  | nil => exact h
  | cons f rest ih =>
    obtain ⟨img, ts⟩ := f
    simp only [processLoop]
    split
    · exact ih _ (by simpa using h)
    · split
      · simpa using h
      · split
        · rename_i dets hdet hanom
          intro i hi
          rcases reportAnomaly_savedImages cfg env _ _ _ _ i hi with h1 | h2
          · simp only [recordDraw_savedImages, markSampled_savedImages,
              readFrame_savedImages] at h1
            obtain ⟨e, he, hie⟩ := h i h1
            refine ⟨e, ?_, hie⟩
            rw [reportAnomaly_drawn]
            simp only [recordDraw_drawn, markSampled_drawn, readFrame_drawn]
            exact List.mem_append_left _ he
          · refine ⟨⟨img, dets, env.draw (frameCopy img) dets⟩, ?_, h2⟩
            rw [reportAnomaly_drawn]
            simp
        · rename_i dets hdet hanom
          refine ih _ ?_
          intro i hi
          simp only [recordDraw_savedImages, markSampled_savedImages,
            readFrame_savedImages] at hi
          obtain ⟨e, he, hie⟩ := h i hi
          refine ⟨e, ?_, hie⟩
          simp only [recordDraw_drawn, markSampled_drawn, readFrame_drawn]
          exact List.mem_append_left _ he

end LoopLemmas

/-- Decimal decoding, used to show the zero-padded fields are injective. -/
def parseNat (cs : List Char) : ℕ :=
  cs.foldl (fun a c => a * 10 + (c.toNat - 48)) 0

theorem digitChar_toNat (d : ℕ) (h : d < 10) : (digitChar d).toNat = 48 + d := by
  interval_cases d <;> decide

theorem digitChar_ne_slash (d : ℕ) (h : d < 10) : digitChar d ≠ '/' := by
  interval_cases d <;> decide

theorem natToDigitsAux_append (fuel : ℕ) : ∀ (n : ℕ) (acc : List Char),
    natToDigitsAux fuel n acc = natToDigitsAux fuel n [] ++ acc := by
  induction fuel with
  | zero => intro n acc; simp [natToDigitsAux]
  | succ fuel ih =>
    intro n acc
    by_cases h : n < 10
    · simp [natToDigitsAux, h]
    · simp only [natToDigitsAux, if_neg h]
      rw [ih (n / 10) (digitChar (n % 10) :: acc), ih (n / 10) [digitChar (n % 10)]]
      simp

theorem natToDigitsAux_length_le (fuel : ℕ) : ∀ (n k : ℕ), n < fuel → n < 10 ^ k →
    1 ≤ k → (natToDigitsAux fuel n []).length ≤ k := by
  induction fuel with
  | zero => intro n k hf; omega
  | succ fuel ih =>
    intro n k hf hk h1
    by_cases h : n < 10
    · simp [natToDigitsAux, h]; omega
    · simp only [natToDigitsAux, if_neg h]
      rw [natToDigitsAux_append]
      have hk2 : 2 ≤ k := by
        by_contra hc
        have hk1 : k = 1 := by omega
        subst hk1
        simp at hk
        omega
      have hpow : 10 ^ k = 10 ^ (k - 1) * 10 := by
        rw [← pow_succ]
        congr 1
        omega
      have hdiv : n / 10 < 10 ^ (k - 1) := by
        rw [Nat.div_lt_iff_lt_mul (by norm_num)]
        omega
      have := ih (n / 10) (k - 1) (by omega) hdiv (by omega)
      simp only [List.length_append, List.length_cons, List.length_nil]
      omega

theorem foldl_natToDigitsAux (fuel : ℕ) : ∀ (n : ℕ), n < fuel → ∀ (v : ℕ),
    List.foldl (fun a c => a * 10 + (c.toNat - 48)) v (natToDigitsAux fuel n [])
      = v * 10 ^ (natToDigitsAux fuel n []).length + n := by
  induction fuel with
  | zero => intro n hf; omega
  | succ fuel ih =>
    intro n hf v
    by_cases h : n < 10
    · simp only [natToDigitsAux, if_pos h, List.foldl_cons, List.foldl_nil,
        List.length_cons, List.length_nil]
      rw [digitChar_toNat (n % 10) (by omega)]
      simp
      omega
    · simp only [natToDigitsAux, if_neg h]
      rw [natToDigitsAux_append, List.foldl_append, List.length_append]
      rw [ih (n / 10) (by omega) v]
      simp only [List.foldl_cons, List.foldl_nil, List.length_cons, List.length_nil]
      rw [digitChar_toNat (n % 10) (by omega)]
      have hmod : 48 + n % 10 - 48 = n % 10 := by omega
      rw [hmod]
      rw [pow_succ]
      have hP : (v * 10 ^ (natToDigitsAux fuel (n / 10) []).length + n / 10) * 10 + n % 10
          = v * (10 ^ (natToDigitsAux fuel (n / 10) []).length * 10)
            + (10 * (n / 10) + n % 10) := by ring
      rw [Nat.div_add_mod] at hP
      exact hP

theorem parseNat_natToDecimal (n : ℕ) : parseNat (natToDecimal n).data = n := by
  have := foldl_natToDigitsAux (n + 1) n (by omega) 0
  simpa [parseNat, natToDecimal] using this

theorem parseNat_padZeros (w n : ℕ) : parseNat (padZeros w n).data = n := by
  show parseNat (List.replicate (w - (natToDecimal n).data.length) '0'
      ++ (natToDecimal n).data) = n
  unfold parseNat
  rw [List.foldl_append]
  have h0 : ∀ k, List.foldl (fun a c => a * 10 + (c.toNat - 48)) 0
      (List.replicate k '0') = 0 := by
    intro k
    induction k with
    | zero => rfl
    | succ k ihk =>
      rw [List.replicate_succ, List.foldl_cons]
      exact ihk
  rw [h0]
  exact parseNat_natToDecimal n

theorem padZeros_length (w n : ℕ) (h : n < 10 ^ w) (h1 : 1 ≤ w) :
    (padZeros w n).data.length = w := by
  show (List.replicate (w - (natToDecimal n).data.length) '0'
      ++ (natToDecimal n).data).length = w
  have hL : (natToDecimal n).data.length ≤ w :=
    natToDigitsAux_length_le (n + 1) n w (by omega) h h1
  simp only [List.length_append, List.length_replicate]
  omega

theorem natToDigitsAux_chars (fuel : ℕ) : ∀ (n : ℕ) (acc : List Char),
    ∀ c ∈ natToDigitsAux fuel n acc, c ∈ acc ∨ ∃ d, d < 10 ∧ c = digitChar d := by
  induction fuel with
  | zero => exact fun n acc c hc => Or.inl hc
  | succ fuel ih =>
    intro n acc c hc
    by_cases h : n < 10
    · rw [natToDigitsAux, if_pos h] at hc
      rcases List.mem_cons.mp hc with h1 | h2
      · exact Or.inr ⟨n % 10, by omega, h1⟩
      · exact Or.inl h2
    · rw [natToDigitsAux, if_neg h] at hc
      rcases ih (n / 10) _ c hc with h1 | h2
      · rcases List.mem_cons.mp h1 with g1 | g2
        · exact Or.inr ⟨n % 10, by omega, g1⟩
        · exact Or.inl g2
      · exact Or.inr h2

theorem padZeros_chars (w n : ℕ) : ∀ c ∈ (padZeros w n).data, c ≠ '/' := by
  intro c hc
  rcases List.mem_append.mp hc with h1 | h2
  · have hc0 : c = '0' := List.eq_of_mem_replicate h1
    subst hc0
    decide
  · rcases natToDigitsAux_chars (n + 1) n [] c h2 with h3 | ⟨d, hd, rfl⟩
    · simp at h3
    · exact digitChar_ne_slash d hd

theorem uniqueFilename_chars (i t : ℕ) : ∀ c ∈ (uniqueFilename i t).data, c ≠ '/' := by
  intro c hc
  have hc2 : c ∈ "processed_frame_".data ++ (padZeros 6 i).data
      ++ "_".data ++ (padZeros 10 t).data ++ ".jpg".data := hc
  have hstem : ∀ x ∈ "processed_frame_".data, x ≠ '/' := by decide
  have hsep : ∀ x ∈ "_".data, x ≠ '/' := by decide
  have hext : ∀ x ∈ ".jpg".data, x ≠ '/' := by decide
  rcases List.mem_append.mp hc2 with h1 | h2
  rotate_left
  · exact hext c h2
  rcases List.mem_append.mp h1 with h3 | h4
  rotate_left
  · exact padZeros_chars 10 t c h4
  rcases List.mem_append.mp h3 with h5 | h6
  rotate_left
  · exact hsep c h6
  rcases List.mem_append.mp h5 with h7 | h8
  · exact hstem c h7
  · exact padZeros_chars 6 i c h8

theorem uniqueFilename_inj (i t i2 t2 : ℕ) (hi : i < 10 ^ 6) (ht : t < 10 ^ 10)
    (hi2 : i2 < 10 ^ 6) (ht2 : t2 < 10 ^ 10)
    (h : uniqueFilename i t = uniqueFilename i2 t2) : i = i2 ∧ t = t2 := by
  have hd : "processed_frame_".data ++ ((padZeros 6 i).data
        ++ ("_".data ++ ((padZeros 10 t).data ++ ".jpg".data)))
      = "processed_frame_".data ++ ((padZeros 6 i2).data
        ++ ("_".data ++ ((padZeros 10 t2).data ++ ".jpg".data))) := by
    have hdata := congrArg String.data h
    simpa [uniqueFilename, List.append_assoc] using hdata
  have h2 := List.append_cancel_left hd
  have h3 := List.append_inj h2
    (by rw [padZeros_length 6 i hi (by norm_num), padZeros_length 6 i2 hi2 (by norm_num)])
  obtain ⟨hA, hrest⟩ := h3
  have hieq : i = i2 := by
    have hp := congrArg parseNat hA
    rwa [parseNat_padZeros, parseNat_padZeros] at hp
  have h4 := List.append_cancel_left hrest
  have h5 := List.append_inj h4
    (by rw [padZeros_length 10 t ht (by norm_num), padZeros_length 10 t2 ht2 (by norm_num)])
  have hteq : t = t2 := by
    have hp := congrArg parseNat h5.1
    rwa [parseNat_padZeros, parseNat_padZeros] at hp
  exact ⟨hieq, hteq⟩

theorem filter_range'_first (sr : ℕ) (h1 : 1 ≤ sr) :
    (List.range' 1 sr).filter (fun n => decide (n % sr = 0)) = [sr] := by
  have hsplit : List.range' 1 sr = List.range' 1 (sr - 1) ++ [sr] := by
    have hc := @List.range'_concat 1 1 (sr - 1)
    rw [show (sr - 1) + 1 = sr from by omega] at hc
    rw [show 1 + 1 * (sr - 1) = sr from by omega] at hc
    exact hc
  rw [hsplit, List.filter_append]
  have hnil : (List.range' 1 (sr - 1)).filter (fun n => decide (n % sr = 0)) = [] := by
    rw [List.filter_eq_nil_iff]
    intro a ha
    have hmem := List.mem_range'_1.mp ha
    have hlt : a % sr = a := Nat.mod_eq_of_lt (by omega)
    simp [hlt]
    omega
  rw [hnil]
  simp [Nat.mod_self]

theorem filter_range'_head (sr m : ℕ) (h1 : 1 ≤ sr) :
    ((List.range' 1 m).filter (fun n => decide (n % sr = 0))).head?
      = if sr ≤ m then some sr else none := by
  by_cases hm : sr ≤ m
  · rw [if_pos hm]
    have happ := List.range'_append 1 sr (m - sr) 1
    rw [show (m - sr) + sr = m from by omega] at happ
    rw [show 1 + 1 * sr = 1 + sr from by omega] at happ
    rw [← happ, List.filter_append, filter_range'_first sr h1]
    rfl
  · rw [if_neg hm]
    have hnil : (List.range' 1 m).filter (fun n => decide (n % sr = 0)) = [] := by
      rw [List.filter_eq_nil_iff]
      intro a ha
      have hmem := List.mem_range'_1.mp ha
      have hlt : a % sr = a := Nat.mod_eq_of_lt (by omega)
      simp [hlt]
      omega
    rw [hnil]
    rfl

theorem length_le_one_nodup {α : Type} (l : List α) (h : l.length ≤ 1) : l.Nodup := by
  match l with
  | [] => exact List.nodup_nil
  | [a] => exact List.nodup_singleton a
  | a :: b :: t => simp at h

/-- A single person detection used by the concrete scenarios. -/
def personDet : Detection :=
  { name := "person", confidence := 9/10, xmin := 1, ymin := 2, xmax := 3, ymax := 4 }

/-- Detection set with two persons: violates the shipped rule (max 1). -/
def twoPersons : List Detection := [personDet, personDet]

/-- Stream of six frames in which frames 3, 4 and 5 each show two persons,
as in the spec scenario for the first-anomaly-wins invariant. -/
def envC2 : Env ℕ :=
  { frames := [(1, 40), (2, 80), (3, 120), (4, 160), (5, 200), (6, 240)]
  , detector := fun k => if k = 3 ∨ k = 4 ∨ k = 5 then some twoPersons else some []
  , draw := fun img _ => img + 1000
  , writeOk := fun _ => true }

/-- C1: for every detection set and rule config, the verdict of the rule
evaluator is an anomaly exactly when strictly more detections than
`max_allowed` carry a class label equal (case-sensitively, by exact string
equality) to the target class, and the returned matched count is the number
of matching detections. -/
theorem claim_C1_rule_verdict (cfg : RuleConfig) (dets : List Detection) :
    ((checkAnomalyRules cfg dets).1 = true ↔
        (dets.filter (fun d => decide (d.name = cfg.target_class))).length
          > cfg.max_allowed)
    ∧ (checkAnomalyRules cfg dets).2.1
        = (dets.filter (fun d => decide (d.name = cfg.target_class))).length := by
  constructor
  · simp [checkAnomalyRules]
  · rfl

/-- A single matching detection: enough to refute claim C4 as stated. -/
def cexDetection : Detection :=
  { name := "person", confidence := 9/10, xmin := 5, ymin := 6, xmax := 7, ymax := 8 }

/-- C4 counterexample: with the shipped rule (person, max_allowed 1) and one
person detection, the verdict is not an anomaly and
`triggering_objects_list` is empty — not the (nonempty) matching subset, so
the list is not the matching subset on every verdict. -/
theorem claim_C4_counterexample :
    ¬ ((checkAnomalyRules defaultRuleConfig [cexDetection]).2.2
        = ([cexDetection].filter
            (fun d => decide (d.name = defaultRuleConfig.target_class))).map
            mkTriggeringObject) := by
  intro h
  have hlen := congrArg List.length h
  rw [show (checkAnomalyRules defaultRuleConfig [cexDetection]).2.2 = [] from rfl] at hlen
  rw [show ([cexDetection].filter
      (fun d => decide (d.name = defaultRuleConfig.target_class))).map mkTriggeringObject
      = [mkTriggeringObject cexDetection] from rfl] at hlen
  simp at hlen

/-- C4 (amended): `triggering_detections` is exactly the matching subset, in
the detection order, when the verdict is an anomaly, and is the empty list
when it is not. -/
theorem claim_C4_amended (cfg : RuleConfig) (dets : List Detection) :
    (checkAnomalyRules cfg dets).2.2
      = if (checkAnomalyRules cfg dets).1
        then (dets.filter (fun d => decide (d.name = cfg.target_class))).map
            mkTriggeringObject
        else [] := rfl

/-- C2: at most one alert payload is printed per run, whatever the stream,
detector, rule and stride; and on a stride-1 stream whose frames 3, 4 and 5
all violate the rule, exactly one record is emitted, it references frame 3,
and no frame beyond 3 is read or sent to the detector. -/
theorem claim_C2_single_alert :
    (∀ (Img : Type) (cfg : RuleConfig) (env : Env Img) (sampleRate : ℕ),
        (processVideoStream cfg env sampleRate).alerts.length ≤ 1)
    ∧ (processVideoStream defaultRuleConfig envC2 1).alerts.map
        (fun a => a.frame_number_original) = [3]
    ∧ (processVideoStream defaultRuleConfig envC2 1).framesRead = 3
    ∧ (processVideoStream defaultRuleConfig envC2 1).processedOrdinals = [1, 2, 3] := by
  refine ⟨?_, by decide, by decide, by decide⟩
  intro Img cfg env sampleRate
  have h := processLoop_alerts_le cfg env sampleRate env.frames (initState Img)
  simpa [processVideoStream, initState] using h

/-- C8: the label-background geometry of detect.py lines 188-192 evaluated
at a detection touching the top edge of the frame (`ymin = 0`) with a text
box of height 10 and baseline 4: the bottom coordinate `label_ymax_bg`
(line 189, computed with no clamping) is -4 — a negative, out-of-frame
coordinate — while the two clamped coordinates are held at 0. -/
theorem claim_C8_label_geometry :
    labelYmaxBg 0 4 = -4 ∧ labelYmaxBg 0 4 < 0
    ∧ labelYminBg 0 10 4 = 0 ∧ labelXminBg (-3) = 0 := by
  refine ⟨rfl, by decide, by decide, by decide⟩

/-- Stream with an anomaly at frame 2 whose annotated-frame save fails. -/
def envSaveFail : Env ℕ :=
  { frames := [(1, 40), (2, 80), (3, 120), (4, 160), (5, 200)]
  , detector := fun k => if k = 2 then some twoPersons else some []
  , draw := fun img _ => img + 1000
  , writeOk := fun _ => false }

/-- The same stream with a succeeding save. -/
def envSaveOk : Env ℕ := { envSaveFail with writeOk := fun _ => true }

/-- C10: the end-of-run "no anomalies detected" diagnostic is printed exactly
when the anomaly-found flag stayed down; and on the run where the triggering
save fails, the flag (raised before persistence was attempted) ends the run
true, the diagnostic is suppressed, and no alert was emitted. -/
theorem claim_C10_flag_before_persistence :
    (∀ (Img : Type) (cfg : RuleConfig) (env : Env Img) (sampleRate : ℕ),
        (processVideoStream cfg env sampleRate).noAnomalyDiagnostic
          = !(processVideoStream cfg env sampleRate).anomalyFlag)
    ∧ (processVideoStream defaultRuleConfig envSaveFail 1).anomalyFlag = true
    ∧ (processVideoStream defaultRuleConfig envSaveFail 1).alerts = []
    ∧ (processVideoStream defaultRuleConfig envSaveFail 1).noAnomalyDiagnostic = false := by
  exact ⟨fun Img cfg env sampleRate => rfl, by decide, by decide, by decide⟩

/-- C3: for every run with sampleStride at least 1, the ordinals sent to the
detector are exactly the positive multiples of the stride that do not exceed
the number of frames read; consequently the first processed frame has
ordinal sampleStride whenever any frame is processed at all. -/
theorem claim_C3_sampling (Img : Type) (cfg : RuleConfig) (env : Env Img)
    (sampleRate : ℕ) (h1 : 1 ≤ sampleRate) :
    (∀ n, n ∈ (processVideoStream cfg env sampleRate).processedOrdinals
        ↔ (sampleRate ∣ n ∧ 1 ≤ n
            ∧ n ≤ (processVideoStream cfg env sampleRate).framesRead))
    ∧ (processVideoStream cfg env sampleRate).processedOrdinals.head?
        = (if sampleRate ≤ (processVideoStream cfg env sampleRate).framesRead
          then some sampleRate else none) := by
  have hords := processLoop_ords cfg env sampleRate env.frames (initState Img)
  have hshow : (processVideoStream cfg env sampleRate).processedOrdinals
      = (List.range' 1 (processVideoStream cfg env sampleRate).framesRead).filter
          (fun n => decide (n % sampleRate = 0)) := by
    show (processLoop cfg env sampleRate env.frames (initState Img)).processedOrdinals = _
    rw [hords]
    rfl
  constructor
  · intro n
    rw [hshow, List.mem_filter, List.mem_range'_1]
    constructor
    · rintro ⟨⟨hn1, hn2⟩, hmod⟩
      simp at hmod
      exact ⟨Nat.dvd_iff_mod_eq_zero.mpr hmod, hn1, by omega⟩
    · rintro ⟨hdvd, hn1, hn2⟩
      refine ⟨⟨hn1, by omega⟩, ?_⟩
      simp [Nat.dvd_iff_mod_eq_zero.mp hdvd]
  · rw [hshow]
    exact filter_range'_head sampleRate _ h1

/-- Stream of five frames with no detections at all, used at stride 2. -/
def envC3 : Env ℕ :=
  { frames := [(1, 40), (2, 80), (3, 120), (4, 160), (5, 200)]
  , detector := fun _ => some []
  , draw := fun img _ => img + 1000
  , writeOk := fun _ => true }

/-- Witness for C3: at stride 2 on a five-frame stream the theorem applies,
and in particular the first processed ordinal is the stride itself. -/
theorem claim_C3_sampling_witness :
    (1 ≤ 2)
    ∧ (processVideoStream defaultRuleConfig envC3 2).processedOrdinals.head?
        = (if 2 ≤ (processVideoStream defaultRuleConfig envC3 2).framesRead
          then some 2 else none) :=
  ⟨by decide, (claim_C3_sampling ℕ defaultRuleConfig envC3 2 (by decide)).2⟩

/-- C5: every emitted alert references a filename that was successfully
persisted in the same run; on the concrete stride-1 run whose triggering
frame (frame 2) fails to save, no alert and no file are produced and the
loop still stops at frame 2, while the identical run with a succeeding save
emits exactly the alert referencing the saved file. -/
theorem claim_C5_alert_iff_save :
    (∀ (Img : Type) (cfg : RuleConfig) (env : Env Img) (sampleRate : ℕ),
        ∀ a ∈ (processVideoStream cfg env sampleRate).alerts,
          a.frame_filename ∈ (processVideoStream cfg env sampleRate).savedFiles)
    ∧ (processVideoStream defaultRuleConfig envSaveFail 1).alerts = []
    ∧ (processVideoStream defaultRuleConfig envSaveFail 1).savedFiles = []
    ∧ (processVideoStream defaultRuleConfig envSaveFail 1).framesRead = 2
    ∧ (processVideoStream defaultRuleConfig envSaveOk 1).alerts.map
        (fun a => a.frame_filename) = [uniqueFilename 2 80]
    ∧ (processVideoStream defaultRuleConfig envSaveOk 1).savedFiles
        = [uniqueFilename 2 80] := by
  refine ⟨?_, by decide, by decide, by decide, by decide, by decide⟩
  intro Img cfg env sampleRate
  have h := processLoop_alert_files cfg env sampleRate env.frames (initState Img)
    (by simp [initState])
  simpa [processVideoStream] using h

/-- Witness for C5: on the run with the succeeding save, the emitted alert's
referenced filename is among the persisted files. -/
theorem claim_C5_alert_iff_save_witness :
    uniqueFilename 2 80 ∈ (processVideoStream defaultRuleConfig envSaveOk 1).savedFiles := by
  have h := claim_C5_alert_iff_save.2.2.2.2.2
  rw [h]
  exact List.mem_singleton.mpr rfl

/-- Stream of ten frames on which the detector raises at frame 7 and finds
nothing elsewhere. -/
def envC6 : Env ℕ :=
  { frames := [(1, 40), (2, 80), (3, 120), (4, 160), (5, 200), (6, 240),
      (7, 280), (8, 320), (9, 360), (10, 400)]
  , detector := fun k => if k = 7 then none else some []
  , draw := fun img _ => img + 1000
  , writeOk := fun _ => true }

/-- C6: the controller exits 0 on every run that gets past setup, whatever
happens per frame; and a detector failure on frame 7 of a ten-frame stride-1
stream with no prior anomaly halts the run there with frames_read 7, no
output-channel record, and exit code 0. -/
theorem claim_C6_error_containment :
    (∀ (Img : Type) (cfg : RuleConfig) (env : Env Img) (sampleRate : ℕ),
        (processVideoStream cfg env sampleRate).exitCode = 0)
    ∧ (processVideoStream defaultRuleConfig envC6 1).framesRead = 7
    ∧ (processVideoStream defaultRuleConfig envC6 1).framesSampled = 7
    ∧ (processVideoStream defaultRuleConfig envC6 1).alerts = []
    ∧ (processVideoStream defaultRuleConfig envC6 1).anomalyFlag = false
    ∧ (processVideoStream defaultRuleConfig envC6 1).exitCode = 0 := by
  exact ⟨fun Img cfg env sampleRate => rfl, by decide, by decide, by decide,
    by decide, by decide⟩

/-- C7: the persisted filename is the fixed stem, the 6-digit zero-padded
ordinal and the 10-digit zero-padded timestamp; on the digit ranges these
fields admit, equal filenames force equal inputs (collision-freedom and
determinism), the name is 37 characters with no path separator (a bare
filename, never a full path), and the files persisted in any one run carry
no duplicate name. -/
theorem claim_C7_filename (i t i2 t2 : ℕ) (hi : i < 10 ^ 6) (ht : t < 10 ^ 10)
    (hi2 : i2 < 10 ^ 6) (ht2 : t2 < 10 ^ 10) :
    (uniqueFilename i t = uniqueFilename i2 t2 ↔ (i = i2 ∧ t = t2))
    ∧ (uniqueFilename i t).data.length = 37
    ∧ (∀ c ∈ (uniqueFilename i t).data, c ≠ '/')
    ∧ (∀ (Img : Type) (cfg : RuleConfig) (env : Env Img) (sampleRate : ℕ),
        (processVideoStream cfg env sampleRate).savedFiles.Nodup) := by
  refine ⟨⟨fun h => uniqueFilename_inj i t i2 t2 hi ht hi2 ht2 h,
    fun h => by rw [h.1, h.2]⟩, ?_, uniqueFilename_chars i t, ?_⟩
  · show ("processed_frame_".data ++ (padZeros 6 i).data ++ "_".data
      ++ (padZeros 10 t).data ++ ".jpg".data).length = 37
    have l1 : "processed_frame_".data.length = 16 := by decide
    have l2 : "_".data.length = 1 := by decide
    have l3 : ".jpg".data.length = 4 := by decide
    simp only [List.length_append, l1, l2, l3,
      padZeros_length 6 i hi (by norm_num), padZeros_length 10 t ht (by norm_num)]
  · intro Img cfg env sampleRate
    apply length_le_one_nodup
    have h := processLoop_saved_le cfg env sampleRate env.frames (initState Img)
    simpa [processVideoStream, initState] using h

/-- Witness for C7: the injectivity conjunct applied at ordinals 3 and 4. -/
theorem claim_C7_filename_witness :
    ((3 : ℕ) < 10 ^ 6) ∧ ((5 : ℕ) < 10 ^ 10)
    ∧ (uniqueFilename 3 5 = uniqueFilename 4 6 ↔ ((3 : ℕ) = 4 ∧ (5 : ℕ) = 6)) :=
  ⟨by norm_num, by norm_num,
    (claim_C7_filename 3 5 4 6 (by norm_num) (by norm_num) (by norm_num)
      (by norm_num)).1⟩

/-- C9: whenever the detector returns normally on every frame, one
annotation is performed per sampled frame — anomalous or not; each recorded
annotation is the drawing function applied to a copy of the frame read from
the stream (whose recorded value is the unchanged stream frame); and every
image handed to the persister is one of those annotated copies. -/
theorem claim_C9_annotate_on_copy (Img : Type) (cfg : RuleConfig) (env : Env Img)
    (sampleRate : ℕ) (hdet : ∀ i, (env.detector i).isSome) :
    (processVideoStream cfg env sampleRate).drawn.length
        = (processVideoStream cfg env sampleRate).framesSampled
    ∧ (∀ e ∈ (processVideoStream cfg env sampleRate).drawn,
        e.annotated = env.draw (frameCopy e.source) e.dets
          ∧ env.detector e.source = some e.dets
          ∧ e.source ∈ env.frames.map Prod.fst)
    ∧ (∀ i ∈ (processVideoStream cfg env sampleRate).savedImages,
        ∃ e ∈ (processVideoStream cfg env sampleRate).drawn, i = e.annotated) := by
  refine ⟨?_, ?_, ?_⟩
  · have h := processLoop_drawn_count cfg env sampleRate env.frames (initState Img) hdet
    simpa [processVideoStream, initState] using h
  · intro e he
    have hspec := processLoop_drawn_spec cfg env sampleRate env.frames (initState Img) e he
    rcases hspec with hcase | hcase
    · simp [initState] at hcase
    · exact hcase
  · intro i hi
    exact processLoop_savedImages cfg env sampleRate env.frames (initState Img)
      (by simp [initState]) i hi

/-- Stream of two frames with an empty detection set on each. -/
def envC9 : Env ℕ :=
  { frames := [(1, 10), (2, 20)]
  , detector := fun _ => some []
  , draw := fun img _ => img + 1000
  , writeOk := fun _ => true }

/-- Witness for C9: on a concrete two-frame run with a never-failing
detector, the number of annotations equals the number of sampled frames. -/
theorem claim_C9_annotate_on_copy_witness :
    (processVideoStream defaultRuleConfig envC9 1).drawn.length
      = (processVideoStream defaultRuleConfig envC9 1).framesSampled :=
  (claim_C9_annotate_on_copy ℕ defaultRuleConfig envC9 1 (fun _ => rfl)).1
